import Mathlib

/-!
Verification of the read-through cache layer and the API-key
authentication/administration layer of the corporate DEI tracker API.

The embedding models, from the source:
- `app/redis_client.py` : `get_cache`, `set_cache` (Redis store modelled as an
  association list of entries with absolute expiry times; store failures are
  modelled by an explicit failure flag standing for the `except` branches).
- `app/utils/cache.py` : the `cached` decorator's runtime behaviour
  (`get_or_compute`), its default key builder, and `build_query_cache_key`.
- `app/middleware/auth.py` : `hash_api_key` (the SHA-256 digest is treated as
  an abstract collaborator function `hashFn`), `generate_api_key`
  (`secrets.token_urlsafe(32)`: 32 random bytes, modelled as an explicit byte
  list, base64url-encoded without padding), `verify_api_key`,
  `require_admin_key`.
- `app/routers/api_keys.py` : the admin endpoints for creating, updating,
  deactivating, activating and deleting keys (the relational store is modelled
  as a list of key records; each endpoint is the post-authentication handler).

Python values that flow through the cache are modelled by `PyVal`
(`None`, booleans, ints, strings and lists).  JSON floats/objects and the
`last_used_at` best-effort timestamp update (which cannot change any
caller-visible outcome) are outside the modelled domain.
-/

/-- The domain of Python values handled by the cache layer:
`None`, `bool`, `int`, `str` and lists thereof. -/
inductive PyVal where
  | none : PyVal
  | bool : Bool → PyVal
  | int : Int → PyVal
  | str : String → PyVal
  | list : List PyVal → PyVal

mutual

/-- Boolean equality on `PyVal` (the nested inductive prevents deriving). -/
def PyVal.beq : PyVal → PyVal → Bool
  | PyVal.none, PyVal.none => true
  | PyVal.bool a, PyVal.bool b => a == b
  | PyVal.int a, PyVal.int b => a == b
  | PyVal.str a, PyVal.str b => a == b
  | PyVal.list xs, PyVal.list ys => PyVal.beqList xs ys
  | _, _ => false

/-- Boolean equality on lists of `PyVal`. -/
def PyVal.beqList : List PyVal → List PyVal → Bool
  | [], [] => true
  | x :: xs, y :: ys => PyVal.beq x y && PyVal.beqList xs ys
  | _, _ => false

end

mutual

theorem PyVal.beq_iff : ∀ (a b : PyVal), (PyVal.beq a b = true) ↔ a = b
  | PyVal.none, b => by cases b <;> simp [PyVal.beq]
  | PyVal.bool _, b => by cases b <;> simp [PyVal.beq]
  | PyVal.int _, b => by cases b <;> simp [PyVal.beq]
  | PyVal.str _, b => by cases b <;> simp [PyVal.beq]
  | PyVal.list xs, PyVal.list ys => by
    have h := PyVal.beqList_iff xs ys
    simpa [PyVal.beq] using h
  | PyVal.list _, PyVal.none => by simp [PyVal.beq]
  | PyVal.list _, PyVal.bool _ => by simp [PyVal.beq]
  | PyVal.list _, PyVal.int _ => by simp [PyVal.beq]
  | PyVal.list _, PyVal.str _ => by simp [PyVal.beq]

theorem PyVal.beqList_iff : ∀ (xs ys : List PyVal),
    (PyVal.beqList xs ys = true) ↔ xs = ys
  | [], [] => by simp [PyVal.beqList]
  | [], _ :: _ => by simp [PyVal.beqList]
  | _ :: _, [] => by simp [PyVal.beqList]
  | x :: xs, y :: ys => by
    have h1 := PyVal.beq_iff x y
    have h2 := PyVal.beqList_iff xs ys
    simp [PyVal.beqList, h1, h2]

end

instance : DecidableEq PyVal :=
  fun a b => decidable_of_iff (PyVal.beq a b = true) (PyVal.beq_iff a b)

mutual

/-- Python `str()` on a `PyVal` (used by f-string interpolation in the key
builders).  For strings, `str` is the identity; lists render their elements
with `repr`. -/
def pyStr : PyVal → String
  | PyVal.none => "None"
  | PyVal.bool true => "True"
  | PyVal.bool false => "False"
  | PyVal.int n => toString n
  | PyVal.str s => s
  | PyVal.list xs => "[" ++ pyReprList xs ++ "]"

/-- Python `repr()` on a `PyVal` (strings gain quotes; escape sequences inside
string reprs are not modelled). -/
def pyRepr : PyVal → String
  | PyVal.none => "None"
  | PyVal.bool true => "True"
  | PyVal.bool false => "False"
  | PyVal.int n => toString n
  | PyVal.str s => "'" ++ s ++ "'"
  | PyVal.list xs => "[" ++ pyReprList xs ++ "]"

/-- Comma-separated reprs of list elements, as Python prints a list. -/
def pyReprList : List PyVal → String
  | [] => ""
  | [x] => pyRepr x
  | x :: xs => pyRepr x ++ ", " ++ pyReprList xs

end

/-- Four-digit uppercase hex rendering used by `\uXXXX` escapes. -/
def hex4 (n : Nat) : String :=
  let d := fun (k : Nat) => (Nat.digitChar ((n / k) % 16))
  String.mk [d 4096, d 256, d 16, d 1]

/-- `json.dumps` escaping of a single character (`ensure_ascii=True` default:
characters outside printable ASCII become `\uXXXX`; code points above
`0xFFFF`, which Python renders as surrogate pairs, are outside the modelled
domain). -/
def jsonEscChar (c : Char) : String :=
  if c = '"' then "\\\""
  else if c = '\\' then "\\\\"
  else if c = '\n' then "\\n"
  else if c = '\t' then "\\t"
  else if c = '\r' then "\\r"
  else if c.toNat = 8 then "\\b"
  else if c.toNat = 12 then "\\f"
  else if c.toNat < 32 ∨ 126 < c.toNat then "\\u" ++ hex4 c.toNat
  else String.singleton c

mutual

/-- `json.dumps` on the modelled value domain (default separators). -/
def dumps : PyVal → String
  | PyVal.none => "null"
  | PyVal.bool true => "true"
  | PyVal.bool false => "false"
  | PyVal.int n => toString n
  | PyVal.str s => "\"" ++ String.join (s.data.map jsonEscChar) ++ "\""
  | PyVal.list xs => "[" ++ dumpsList xs ++ "]"

/-- Elements of a JSON array, joined by `json.dumps`'s default ", ". -/
def dumpsList : List PyVal → String
  | [] => ""
  | [x] => dumps x
  | x :: xs => dumps x ++ ", " ++ dumpsList xs

end

/-- JSON insignificant whitespace. -/
def jsonWs (c : Char) : Bool :=
  c = ' ' || c = '\t' || c = '\n' || c = '\r'

/-- Skip insignificant whitespace. -/
def skipWs : List Char → List Char
  | [] => []
  | c :: cs => if jsonWs c then skipWs cs else c :: cs

/-- Value of a hex digit, if any. -/
def hexDigitVal (c : Char) : Option Nat :=
  if '0' ≤ c ∧ c ≤ '9' then Option.some (c.toNat - '0'.toNat)
  else if 'a' ≤ c ∧ c ≤ 'f' then Option.some (c.toNat - 'a'.toNat + 10)
  else if 'A' ≤ c ∧ c ≤ 'F' then Option.some (c.toNat - 'A'.toNat + 10)
  else Option.none

/-- Prepend a decoded character to the result of parsing the rest of a JSON
string body. -/
def pushChar (c : Char) (o : Option (List Char × List Char)) :
    Option (List Char × List Char) :=
  o.map (fun p => (c :: p.1, p.2))

/-- Parse the body of a JSON string (after the opening quote) up to and
including the closing quote, decoding escapes; strict mode rejects raw
control characters, as Python's default does. -/
def parseStrChars : List Char → Option (List Char × List Char)
  | [] => Option.none
  | '"' :: rest => Option.some ([], rest)
  | '\\' :: '"' :: rest => pushChar '"' (parseStrChars rest)
  | '\\' :: '\\' :: rest => pushChar '\\' (parseStrChars rest)
  | '\\' :: '/' :: rest => pushChar '/' (parseStrChars rest)
  | '\\' :: 'b' :: rest => pushChar (Char.ofNat 8) (parseStrChars rest)
  | '\\' :: 'f' :: rest => pushChar (Char.ofNat 12) (parseStrChars rest)
  | '\\' :: 'n' :: rest => pushChar '\n' (parseStrChars rest)
  | '\\' :: 'r' :: rest => pushChar '\r' (parseStrChars rest)
  | '\\' :: 't' :: rest => pushChar '\t' (parseStrChars rest)
  | '\\' :: 'u' :: h1 :: h2 :: h3 :: h4 :: rest =>
    match hexDigitVal h1, hexDigitVal h2, hexDigitVal h3, hexDigitVal h4 with
    | Option.some a, Option.some b, Option.some c, Option.some d =>
      pushChar (Char.ofNat (((a * 16 + b) * 16 + c) * 16 + d)) (parseStrChars rest)
    | _, _, _, _ => Option.none
  | '\\' :: _ => Option.none
  | c :: rest =>
    if c.toNat < 32 then Option.none else pushChar c (parseStrChars rest)

/-- Numeric value of a digit run. -/
def digitsVal (ds : List Char) : Nat :=
  ds.foldl (fun acc c => acc * 10 + (c.toNat - '0'.toNat)) 0

/-- Parse a JSON integer literal.  Fractions and exponents (floats) are
outside the modelled value domain, so a number followed by `.`/`e`/`E`
fails to parse here. -/
def parseNum (cs : List Char) : Option (Int × List Char) :=
  let signed := match cs with
    | '-' :: rest => (true, rest)
    | _ => (false, cs)
  let ds := signed.2.takeWhile (fun c => c.isDigit)
  let rest := signed.2.dropWhile (fun c => c.isDigit)
  if ds = [] then Option.none
  else if 1 < ds.length ∧ ds.head? = Option.some '0' then Option.none
  else
    match rest with
    | '.' :: _ => Option.none
    | 'e' :: _ => Option.none
    | 'E' :: _ => Option.none
    | _ =>
      let n : Int := Int.ofNat (digitsVal ds)
      Option.some (if signed.1 then -n else n, rest)

mutual

/-- Recursive-descent parser for a single JSON value (fueled; the fuel is
always at least the input length, which bounds the nesting depth). -/
def parseVal : Nat → List Char → Option (PyVal × List Char)
  | 0, _ => Option.none
  | _ + 1, 'n' :: 'u' :: 'l' :: 'l' :: rest => Option.some (PyVal.none, rest)
  | _ + 1, 't' :: 'r' :: 'u' :: 'e' :: rest => Option.some (PyVal.bool true, rest)
  | _ + 1, 'f' :: 'a' :: 'l' :: 's' :: 'e' :: rest => Option.some (PyVal.bool false, rest)
  | _ + 1, '"' :: rest =>
    (parseStrChars rest).map (fun p => (PyVal.str (String.mk p.1), p.2))
  | fuel + 1, '[' :: rest =>
    match skipWs rest with
    | ']' :: rest₂ => Option.some (PyVal.list [], rest₂)
    | rest₁ => (parseItems fuel rest₁).map (fun p => (PyVal.list p.1, p.2))
  | _ + 1, cs => (parseNum cs).map (fun p => (PyVal.int p.1, p.2))

/-- Parse the comma-separated items of a non-empty JSON array, up to and
including the closing bracket. -/
def parseItems : Nat → List Char → Option (List PyVal × List Char)
  | 0, _ => Option.none
  | fuel + 1, cs =>
    match parseVal fuel cs with
    | Option.none => Option.none
    | Option.some (v, rest) =>
      match skipWs rest with
      | ',' :: rest₂ =>
        (parseItems fuel (skipWs rest₂)).map (fun p => (v :: p.1, p.2))
      | ']' :: rest₂ => Option.some ([v], rest₂)
      | _ => Option.none

end

/-- `json.loads` on the modelled value domain: parse one value surrounded by
optional whitespace; anything else raises `JSONDecodeError`, modelled as
`Option.none`. -/
def loads (s : String) : Option PyVal :=
  match parseVal (s.length + 1) (skipWs s.data) with
  | Option.some (v, rest) =>
    if skipWs rest = [] then Option.some v else Option.none
  | Option.none => Option.none

example : loads "null" = Option.some PyVal.none := by decide
example : loads "42" = Option.some (PyVal.int 42) := by decide
example : loads "-7" = Option.some (PyVal.int (-7)) := by decide
example : loads "\"hi\"" = Option.some (PyVal.str "hi") := by decide
example : loads "not a json" = Option.none := by decide
example : loads "[1, 2]" = Option.some (PyVal.list [PyVal.int 1, PyVal.int 2]) := by decide
example : loads (dumps (PyVal.list [PyVal.int 1, PyVal.str "a"]))
    = Option.some (PyVal.list [PyVal.int 1, PyVal.str "a"]) := by decide
example : loads "042" = Option.none := by decide
example : loads " true " = Option.some (PyVal.bool true) := by decide

/-! ## The Redis cache layer (`app/redis_client.py`) -/

/-- `settings.redis_cache_ttl` default (`app/config.py`): 300 seconds. -/
def defaultCacheTtl : Nat := 300

/-- One stored cache entry: key, opaque text payload, absolute expiry time. -/
structure CacheEntry where
  key : String
  payload : String
  expiresAt : Nat
deriving DecidableEq

/-- `redis_client.get(key)` at time `now`: the payload if the key is present
and not yet expired. -/
def redisGet (st : List CacheEntry) (now : Nat) (key : String) : Option String :=
  match st.find? (fun e => e.key == key) with
  | Option.some e => if now < e.expiresAt then Option.some e.payload else Option.none
  | Option.none => Option.none

/-- `redis_client.set(key, payload, ex=ttl)` at time `now`: overwrite the
entry, which expires `ttl` seconds later. -/
def redisSet (st : List CacheEntry) (now : Nat) (key payload : String)
    (ttl : Nat) : List CacheEntry :=
  ⟨key, payload, now + ttl⟩ :: st.filter (fun e => e.key != key)

/-- The read side's decoding of a non-absent payload, from `get_cache`:
`if value:` rejects the empty string (falsy), then `json.loads` is attempted
and on `JSONDecodeError` the raw string is returned (`return value`).  A
falsy or decoded-to-`None` result makes `get_cache` return Python `None`. -/
def cacheDecode (p : String) : PyVal :=
  if p = "" then PyVal.none
  else
    match loads p with
    | Option.some v => v
    | Option.none => PyVal.str p

/-- `get_cache(key)` from `app/redis_client.py`.  `gFail = true` models the
store raising (the `except` branch returns `None`); a missing or expired key
yields `None`; otherwise the payload is decoded by `cacheDecode`. -/
def get_cache (gFail : Bool) (st : List CacheEntry) (now : Nat)
    (key : String) : PyVal :=
  if gFail then PyVal.none
  else
    match redisGet st now key with
    | Option.some p => cacheDecode p
    | Option.none => PyVal.none

/-- Resolution of the TTL in `set_cache`: `ttl = ttl or settings.redis_cache_ttl`
(note Python's `or`: an explicit `0` also falls back to the default). -/
def resolveTtl (ttl : Option Nat) : Nat :=
  match ttl with
  | Option.some n => if n = 0 then defaultCacheTtl else n
  | Option.none => defaultCacheTtl

/-- The payload `set_cache` stores: strings are stored as-is (the
`isinstance(value, str)` branch skips `json.dumps`), anything else is
JSON-serialized. -/
def payloadOf (v : PyVal) : String :=
  match v with
  | PyVal.str s => s
  | v => dumps v

/-- `set_cache(key, value, ttl)` from `app/redis_client.py`.  `sFail = true`
models the store raising on write (the `except` branch returns `False` and
leaves the store unchanged). -/
def set_cache (sFail : Bool) (st : List CacheEntry) (now : Nat) (key : String)
    (v : PyVal) (ttl : Option Nat) : List CacheEntry :=
  if sFail then st else redisSet st now key (payloadOf v) (resolveTtl ttl)

/-! ## The read-through wrapper (`app/utils/cache.py`, `cached`) -/

/-- The body of the `cached` decorator's `wrapper` for an already-built key:
read the cache, serve any non-`None` result, otherwise run the wrapped
function, write its result, and return it.  The final `Bool` records whether
the wrapped compute function was invoked. -/
def get_or_compute (gFail sFail : Bool) (st : List CacheEntry) (now : Nat)
    (key : String) (f : Unit → PyVal) (ttl : Option Nat) :
    PyVal × List CacheEntry × Bool :=
  let c := get_cache gFail st now key
  if c ≠ PyVal.none then (c, st, false)
  else
    let r := f ()
    (r, set_cache sFail st now key r ttl, true)

/-- The `cached` decorator's default cache key (`app/utils/cache.py`,
lines 36-40): stringified positional args (in call order) and `k=v` pairs for
keyword args (in the kwargs dict's insertion order), each skipping `None`
values, joined by `_`; the empty parts are dropped by `filter(None, ...)`. -/
def defaultCacheKey (keyPfx : String) (args : List PyVal)
    (kwargs : List (String × PyVal)) : String :=
  let args_str := String.intercalate "_"
    ((args.filter (fun a => a != PyVal.none)).map pyStr)
  let kwargs_str := String.intercalate "_"
    ((kwargs.filter (fun p => p.2 != PyVal.none)).map
      (fun p => p.1 ++ "=" ++ pyStr p.2))
  let suffix := String.intercalate "_"
    (([args_str, kwargs_str]).filter (fun s => s != ""))
  if suffix ≠ "" then keyPfx ++ ":" ++ suffix else keyPfx

/-! ## `build_query_cache_key` (`app/utils/cache.py`) -/

/-- Lexicographic (code-point) comparison of character lists: the order
Python uses to compare strings. -/
def charListLeB : List Char → List Char → Bool
  | [], _ => true
  | _ :: _, [] => false
  | a :: as, b :: bs =>
    if a < b then true
    else if b < a then false
    else charListLeB as bs

theorem charListLeB_total : ∀ as bs,
    charListLeB as bs = true ∨ charListLeB bs as = true
  | [], _ => Or.inl (by simp [charListLeB])
  | _ :: _, [] => Or.inr (by simp [charListLeB])
  | a :: as, b :: bs => by
    by_cases h1 : a < b
    · exact Or.inl (by simp [charListLeB, h1])
    · by_cases h2 : b < a
      · exact Or.inr (by simp [charListLeB, h1, h2])
      · rcases charListLeB_total as bs with h | h
        · exact Or.inl (by simp [charListLeB, h1, h2, h])
        · exact Or.inr (by simp [charListLeB, h1, h2, h])

theorem charListLeB_trans : ∀ as bs cs,
    charListLeB as bs = true → charListLeB bs cs = true →
    charListLeB as cs = true
  | [], _, cs, _, _ => by simp [charListLeB]
  | a :: as, [], _, h1, _ => by simp [charListLeB] at h1
  | _ :: _, _ :: _, [], _, h2 => by simp [charListLeB] at h2
  | a :: as, b :: bs, c :: cs, h1, h2 => by
    by_cases hab : a < b
    · by_cases hbc : b < c
      · simp [charListLeB, lt_trans hab hbc]
      · by_cases hcb : c < b
        · simp [charListLeB, hbc, hcb] at h2
        · have hbc' : b = c := le_antisymm (le_of_not_lt hcb) (le_of_not_lt hbc)
          subst hbc'
          simp [charListLeB, hab]
    · by_cases hba : b < a
      · simp [charListLeB, hab, hba] at h1
      · have hab' : a = b := le_antisymm (le_of_not_lt hba) (le_of_not_lt hab)
        subst hab'
        simp only [charListLeB, if_neg (lt_irrefl a)] at h1
        by_cases hac : a < c
        · simp [charListLeB, hac]
        · by_cases hca : c < a
          · simp [charListLeB, hac, hca] at h2
          · simp only [charListLeB, if_neg hac, if_neg hca] at h2 ⊢
            exact charListLeB_trans as bs cs h1 h2

theorem charListLeB_antisymm : ∀ as bs,
    charListLeB as bs = true → charListLeB bs as = true → as = bs
  | [], [], _, _ => rfl
  | [], _ :: _, _, h2 => by simp [charListLeB] at h2
  | _ :: _, [], h1, _ => by simp [charListLeB] at h1
  | a :: as, b :: bs, h1, h2 => by
    by_cases hab : a < b
    · simp [charListLeB, hab, lt_asymm hab] at h2
    · by_cases hba : b < a
      · simp [charListLeB, hab, hba] at h1
      · have hab' : a = b := le_antisymm (le_of_not_lt hba) (le_of_not_lt hab)
        subst hab'
        simp only [charListLeB, if_neg (lt_irrefl a)] at h1 h2
        exact congrArg (a :: ·) (charListLeB_antisymm as bs h1 h2)

/-- Python's `≤` on strings: lexicographic by code point. -/
def strLeB (a b : String) : Bool := charListLeB a.data b.data

theorem strLeB_antisymm {a b : String} (h1 : strLeB a b = true)
    (h2 : strLeB b a = true) : a = b := by
  cases a; cases b
  exact congrArg String.mk (charListLeB_antisymm _ _ h1 h2)

/-- Ordering of parameter items by parameter name, as `sorted()` on dict
items compares the name first (names are unique in a dict, so the value
component is never compared). -/
def paramLe (p q : String × PyVal) : Prop := strLeB p.1 q.1 = true

instance : DecidableRel paramLe :=
  fun p q => inferInstanceAs (Decidable (strLeB p.1 q.1 = true))

instance : IsTotal (String × PyVal) paramLe :=
  ⟨fun p q => charListLeB_total p.1.data q.1.data⟩

instance : IsTrans (String × PyVal) paramLe :=
  ⟨fun _ _ _ h h' => charListLeB_trans _ _ _ h h'⟩

/-- `paramLe` together with distinctness of the names; on lists of
parameters with pairwise-distinct names this identifies the sorted run
uniquely. -/
def paramLtKey (p q : String × PyVal) : Prop := paramLe p q ∧ p.1 ≠ q.1

instance : IsAntisymm (String × PyVal) paramLtKey :=
  ⟨fun _ _ h h' => absurd (strLeB_antisymm h.1 h'.1) h.2⟩

/-- `build_query_cache_key(prefix, **params)`: drop `None`-valued parameters,
return the bare prefix when nothing is left, otherwise join sorted `k=v`
pairs with `_` after `prefix:`. -/
def build_query_cache_key (keyPfx : String)
    (params : List (String × PyVal)) : String :=
  if params.filter (fun p => p.2 != PyVal.none) = [] then keyPfx
  else
    keyPfx ++ ":" ++ String.intercalate "_"
      (((params.filter (fun p => p.2 != PyVal.none)).insertionSort
          paramLe).map (fun p => p.1 ++ "=" ++ pyStr p.2))

example : build_query_cache_key "p" [("b", PyVal.int 2), ("a", PyVal.int 1)]
    = "p:a=1_b=2" := by decide
example : build_query_cache_key "p" [("a", PyVal.int 1), ("b", PyVal.none)]
    = "p:a=1" := by decide
example : build_query_cache_key "p" [("a", PyVal.none)] = "p" := by decide
example : defaultCacheKey "p" [] [("a", PyVal.int 1), ("b", PyVal.int 2)]
    = "p:a=1_b=2" := by decide
example : defaultCacheKey "p" [] [("b", PyVal.int 2), ("a", PyVal.int 1)]
    = "p:b=2_a=1" := by decide
example : defaultCacheKey "p" [] [] = "p" := by decide
example : defaultCacheKey "c" [PyVal.str "x", PyVal.none] [("k", PyVal.int 3)]
    = "c:x_k=3" := by decide

/-! ## API key records and authentication (`app/middleware/auth.py`) -/

/-- A persisted `api_keys` row.  `expires_at` is modelled as an absolute
timestamp (`Option Nat`, absent = never expires); `metadata` is kept as an
opaque string. -/
structure KeyRecord where
  id : String
  key_hash : String
  keyPfx : String
  name : String
  is_active : Bool
  is_admin : Bool
  expires_at : Option Nat
  created_by : Option String
  metadata : String
deriving DecidableEq

/-- The validated principal (`APIKeyValidation` in `app/schemas/api_key.py`). -/
structure APIKeyValidation where
  id : String
  is_admin : Bool
  is_active : Bool
  expires_at : Option Nat
  metadata : String
deriving DecidableEq

/-- Outcome of a dependency/endpoint: a value or an `HTTPException` with an
HTTP status code and detail message. -/
inductive AuthOutcome where
  | ok : APIKeyValidation → AuthOutcome
  | httpError : Nat → String → AuthOutcome
deriving DecidableEq

/-- The record the `.eq("key_hash", key_hash)` query returns (first row of
`response.data`, `None` when the row set is empty). -/
def matchedRecord (hashFn : String → String) (db : List KeyRecord)
    (k : String) : Option KeyRecord :=
  (db.filter (fun r => r.key_hash == hashFn k)).head?

/-- `verify_api_key` from `app/middleware/auth.py`, evaluated fresh per
request.  `hashFn` stands for `hash_api_key` (SHA-256 hex digest), treated as
an abstract collaborator; `db` is the `api_keys` table; `now` is the current
time.  The best-effort `last_used_at` update is absorbed by its own
`except: pass` and cannot change the outcome, so it is not modelled. -/
def verify_api_key (hashFn : String → String) (db : List KeyRecord)
    (now : Nat) (api_key : Option String) : AuthOutcome :=
  if api_key = Option.none ∨ api_key = Option.some "" then
    AuthOutcome.httpError 401
      "API key is required. Include the X-API-Key header in your request."
  else
    match matchedRecord hashFn db (api_key.getD "") with
    | Option.none => AuthOutcome.httpError 401 "Invalid API key"
    | Option.some key_data =>
      if key_data.is_active = false then
        AuthOutcome.httpError 401 "API key has been deactivated"
      else
        match key_data.expires_at with
        | Option.some expiry =>
          if now > expiry then
            AuthOutcome.httpError 401 "API key has expired"
          else
            AuthOutcome.ok ⟨key_data.id, key_data.is_admin, key_data.is_active,
              key_data.expires_at, key_data.metadata⟩
        | Option.none =>
          AuthOutcome.ok ⟨key_data.id, key_data.is_admin, key_data.is_active,
            key_data.expires_at, key_data.metadata⟩

/-- `require_admin_key` from `app/middleware/auth.py`: gate admin-only
operations on the validated principal's `is_admin` flag. -/
def require_admin_key (hashFn : String → String) (db : List KeyRecord)
    (now : Nat) (api_key : Option String) : AuthOutcome :=
  match verify_api_key hashFn db now api_key with
  | AuthOutcome.ok v =>
    if v.is_admin = false then
      AuthOutcome.httpError 403 "Admin API key required for this operation"
    else AuthOutcome.ok v
  | e => e

/-! ## Key generation (`generate_api_key` = `secrets.token_urlsafe(32)`) -/

/-- The URL-safe base64 alphabet used by `base64.urlsafe_b64encode`. -/
def b64Alphabet : List Char :=
  "ABCDEFGHIJKLMNOPQRSTUVWXYZabcdefghijklmnopqrstuvwxyz0123456789-_".data

/-- Character for a six-bit group. -/
def b64Char (n : Nat) : Char := b64Alphabet.getD n 'A'

/-- Index of a character in the URL-safe alphabet. -/
def b64Val (c : Char) : Option Nat := b64Alphabet.findIdx? (fun x => x = c)

/-- base64url encoding without padding, as `secrets.token_urlsafe` produces
(`base64.urlsafe_b64encode(...).rstrip(b"=")`). -/
def b64urlEncode : List Nat → List Char
  | a :: b :: c :: rest =>
    b64Char (a / 4) :: b64Char ((a % 4) * 16 + b / 16) ::
    b64Char ((b % 16) * 4 + c / 64) :: b64Char (c % 64) :: b64urlEncode rest
  | [a, b] =>
    [b64Char (a / 4), b64Char ((a % 4) * 16 + b / 16), b64Char ((b % 16) * 4)]
  | [a] => [b64Char (a / 4), b64Char ((a % 4) * 16)]
  | [] => []

/-- Inverse of `b64urlEncode`, used to show the encoding loses no entropy. -/
def b64urlDecode : List Char → Option (List Nat)
  | [] => Option.some []
  | [_] => Option.none
  | [c1, c2] =>
    match b64Val c1, b64Val c2 with
    | Option.some s1, Option.some s2 => Option.some [s1 * 4 + s2 / 16]
    | _, _ => Option.none
  | [c1, c2, c3] =>
    match b64Val c1, b64Val c2, b64Val c3 with
    | Option.some s1, Option.some s2, Option.some s3 =>
      Option.some [s1 * 4 + s2 / 16, (s2 % 16) * 16 + s3 / 4]
    | _, _, _ => Option.none
  | c1 :: c2 :: c3 :: c4 :: rest =>
    match b64Val c1, b64Val c2, b64Val c3, b64Val c4, b64urlDecode rest with
    | Option.some s1, Option.some s2, Option.some s3, Option.some s4,
      Option.some bs =>
      Option.some ((s1 * 4 + s2 / 16) :: ((s2 % 16) * 16 + s3 / 4) ::
        ((s3 % 4) * 64 + s4) :: bs)
    | _, _, _, _, _ => Option.none

/-- `generate_api_key()` = `secrets.token_urlsafe(32)`: the randomness is
made explicit as the 32 random bytes the standard library draws. -/
def generate_api_key (randomBytes : List Nat) : String :=
  String.mk (b64urlEncode randomBytes)
theorem b64Val_b64Char : ∀ n, n < 64 → b64Val (b64Char n) = Option.some n := by
  decide

theorem b64Char_mem : ∀ n, n < 64 → b64Char n ∈ b64Alphabet := by
  decide

theorem b64urlDecode_encode : ∀ (bs : List Nat), (∀ x ∈ bs, x < 256) →
    b64urlDecode (b64urlEncode bs) = Option.some bs
  | [], _ => by simp [b64urlEncode, b64urlDecode]
  | [a], hb => by
    have ha : a < 256 := hb a (by simp)
    have e1 := b64Val_b64Char (a / 4) (by omega)
    have e2 := b64Val_b64Char ((a % 4) * 16) (by omega)
    simp only [b64urlEncode, b64urlDecode, e1, e2]
    refine congrArg Option.some ?_
    have h1 : (a / 4) * 4 + ((a % 4) * 16) / 16 = a := by omega
    rw [h1]
  | [a, b], hb => by
    have ha : a < 256 := hb a (by simp)
    have hb' : b < 256 := hb b (by simp)
    have e1 := b64Val_b64Char (a / 4) (by omega)
    have e2 := b64Val_b64Char ((a % 4) * 16 + b / 16) (by omega)
    have e3 := b64Val_b64Char ((b % 16) * 4) (by omega)
    simp only [b64urlEncode, b64urlDecode, e1, e2, e3]
    refine congrArg Option.some ?_
    have h1 : (a / 4) * 4 + ((a % 4) * 16 + b / 16) / 16 = a := by omega
    have h2 : (((a % 4) * 16 + b / 16) % 16) * 16 + ((b % 16) * 4) / 4 = b := by
      omega
    rw [h1, h2]
  | a :: b :: c :: rest, hb => by
    have ha : a < 256 := hb a (by simp)
    have hb' : b < 256 := hb b (by simp)
    have hc : c < 256 := hb c (by simp)
    have ih := b64urlDecode_encode rest (fun x hx => hb x (by simp [hx]))
    have e1 := b64Val_b64Char (a / 4) (by omega)
    have e2 := b64Val_b64Char ((a % 4) * 16 + b / 16) (by omega)
    have e3 := b64Val_b64Char ((b % 16) * 4 + c / 64) (by omega)
    have e4 := b64Val_b64Char (c % 64) (by omega)
    simp only [b64urlEncode, b64urlDecode, e1, e2, e3, e4, ih]
    refine congrArg Option.some ?_
    have h1 : (a / 4) * 4 + ((a % 4) * 16 + b / 16) / 16 = a := by omega
    have h2 : (((a % 4) * 16 + b / 16) % 16) * 16 +
        ((b % 16) * 4 + c / 64) / 4 = b := by omega
    have h3 : (((b % 16) * 4 + c / 64) % 4) * 64 + c % 64 = c := by omega
    rw [h1, h2, h3]

theorem b64urlEncode_chars : ∀ (bs : List Nat), (∀ x ∈ bs, x < 256) →
    ∀ ch ∈ b64urlEncode bs, ch ∈ b64Alphabet
  | [], _ => by simp [b64urlEncode]
  | [a], hb => by
    have ha : a < 256 := hb a (by simp)
    intro ch hch
    simp only [b64urlEncode, List.mem_cons, List.not_mem_nil, or_false] at hch
    rcases hch with h | h <;> exact h ▸ b64Char_mem _ (by omega)
  | [a, b], hb => by
    have ha : a < 256 := hb a (by simp)
    have hb' : b < 256 := hb b (by simp)
    intro ch hch
    simp only [b64urlEncode, List.mem_cons, List.not_mem_nil, or_false] at hch
    rcases hch with h | h | h <;> exact h ▸ b64Char_mem _ (by omega)
  | a :: b :: c :: rest, hb => by
    have ha : a < 256 := hb a (by simp)
    have hb' : b < 256 := hb b (by simp)
    have hc : c < 256 := hb c (by simp)
    have ih := b64urlEncode_chars rest (fun x hx => hb x (by simp [hx]))
    intro ch hch
    simp only [b64urlEncode, List.mem_cons] at hch
    rcases hch with h | h | h | h | h
    · exact h ▸ b64Char_mem _ (by omega)
    · exact h ▸ b64Char_mem _ (by omega)
    · exact h ▸ b64Char_mem _ (by omega)
    · exact h ▸ b64Char_mem _ (by omega)
    · exact ih ch h

theorem generate_api_key_inj {bs1 bs2 : List Nat}
    (h1 : ∀ x ∈ bs1, x < 256) (h2 : ∀ x ∈ bs2, x < 256)
    (h : generate_api_key bs1 = generate_api_key bs2) : bs1 = bs2 := by
  have hchars : b64urlEncode bs1 = b64urlEncode bs2 := by
    have := congrArg String.data h
    simpa [generate_api_key] using this
  have := b64urlDecode_encode bs1 h1
  rw [hchars, b64urlDecode_encode bs2 h2] at this
  exact (Option.some.injEq _ _).mp this.symm

/-! ## Admin endpoints (`app/routers/api_keys.py`)

Each endpoint is modelled after `require_admin_key` has accepted the acting
principal (`admin_key`); `acting` is the acting key's id.  The relational
store is the list of `KeyRecord`s; Supabase's `update/delete ... .eq("id", x)
.execute()` returns the affected rows, and an empty row set maps to a 404. -/

/-- Result of an admin endpoint: the affected rows or an `HTTPException`. -/
inductive AdminResult where
  | ok : List KeyRecord → AdminResult
  | httpError : Nat → String → AdminResult
deriving DecidableEq

/-- `APIKeyCreate` (`app/schemas/api_key.py`). -/
structure APIKeyCreate where
  name : String
  is_admin : Bool
  expires_at : Option Nat
  metadata : String
deriving DecidableEq

/-- `APIKeyResponse` (`app/schemas/api_key.py`): the only place the raw key
ever appears. -/
structure APIKeyResponse where
  id : String
  name : String
  key : String
  keyPfx : String
  is_active : Bool
  is_admin : Bool
  expires_at : Option Nat
  metadata : String
deriving DecidableEq

/-- `create_api_key` (`app/routers/api_keys.py`): hash the freshly generated
key, keep its first 8 characters as the display prefix, insert the record
(active, `created_by` = acting admin), and return the raw key once in the
response.  `new_key` is the string `generate_api_key()` produced; `newId` is
the id the database assigns to the inserted row. -/
def create_api_key (hashFn : String → String) (new_key : String)
    (newId : String) (kd : APIKeyCreate) (acting : String)
    (st : List KeyRecord) : APIKeyResponse × KeyRecord × List KeyRecord :=
  let key_hash := hashFn new_key
  let key_pfx := new_key.take 8
  let created : KeyRecord :=
    ⟨newId, key_hash, key_pfx, kd.name, true, kd.is_admin, kd.expires_at,
      Option.some acting, kd.metadata⟩
  (⟨newId, kd.name, new_key, key_pfx, true, kd.is_admin, kd.expires_at,
      kd.metadata⟩,
    created, st ++ [created])

/-- `APIKeyUpdate` (`app/schemas/api_key.py`): all fields optional. -/
structure APIKeyUpdate where
  name : Option String
  is_active : Option Bool
  expires_at : Option Nat
  metadata : Option String
deriving DecidableEq

/-- Application of the `update_data` dict built by `update_api_key` to one
row: only the provided fields change (an update can never clear
`expires_at`, since only non-`None` fields enter `update_data`). -/
def applyUpdate (u : APIKeyUpdate) (r : KeyRecord) : KeyRecord :=
  { r with
    name := u.name.getD r.name
    is_active := u.is_active.getD r.is_active
    expires_at := match u.expires_at with
      | Option.some e => Option.some e
      | Option.none => r.expires_at
    metadata := u.metadata.getD r.metadata }

/-- `update_data` is empty: no field of the request was provided. -/
def noFields (u : APIKeyUpdate) : Bool :=
  u.name.isNone && u.is_active.isNone && u.expires_at.isNone &&
    u.metadata.isNone

/-- `update_api_key` (lines 196-250): 400 when no updates are provided,
otherwise update the row with the target id; 404 when no row matched. -/
def update_api_key (st : List KeyRecord) (acting target : String)
    (u : APIKeyUpdate) : AdminResult × List KeyRecord :=
  if noFields u then (AdminResult.httpError 400 "No updates provided", st)
  else
    ((if (st.map (fun r => if r.id == target then applyUpdate u r else r)).filter
          (fun r => r.id == target) = []
      then AdminResult.httpError 404 "API key not found"
      else AdminResult.ok
        ((st.map (fun r => if r.id == target then applyUpdate u r else r)).filter
          (fun r => r.id == target))),
      st.map (fun r => if r.id == target then applyUpdate u r else r))

/-- `deactivate_api_key` (lines 302-350): the self-protection check comes
first and returns before any store access; otherwise `is_active` is set to
`false` on the target row. -/
def deactivate_api_key (st : List KeyRecord) (acting target : String) :
    AdminResult × List KeyRecord :=
  if target = acting then
    (AdminResult.httpError 400
      "Cannot deactivate the API key you are currently using", st)
  else
    ((if (st.map (fun r =>
          if r.id == target then { r with is_active := false } else r)).filter
          (fun r => r.id == target) = []
      then AdminResult.httpError 404 "API key not found"
      else AdminResult.ok
        ((st.map (fun r =>
          if r.id == target then { r with is_active := false } else r)).filter
          (fun r => r.id == target))),
      st.map (fun r =>
        if r.id == target then { r with is_active := false } else r))

/-- `delete_api_key` (lines 253-299): the self-protection check comes first
and returns before any store access; otherwise the target row is removed. -/
def delete_api_key (st : List KeyRecord) (acting target : String) :
    AdminResult × List KeyRecord :=
  if target = acting then
    (AdminResult.httpError 400
      "Cannot delete the API key you are currently using", st)
  else
    ((if st.filter (fun r => r.id == target) = []
      then AdminResult.httpError 404 "API key not found"
      else AdminResult.ok (st.filter (fun r => r.id == target))),
      st.filter (fun r => r.id != target))

/-- `activate_api_key` (lines 353-394): sets `is_active` to `true`; there is
no self-check here (reactivating oneself is harmless). -/
def activate_api_key (st : List KeyRecord) (acting target : String) :
    AdminResult × List KeyRecord :=
  ((if (st.map (fun r =>
        if r.id == target then { r with is_active := true } else r)).filter
        (fun r => r.id == target) = []
    then AdminResult.httpError 404 "API key not found"
    else AdminResult.ok
      ((st.map (fun r =>
        if r.id == target then { r with is_active := true } else r)).filter
        (fun r => r.id == target))),
    st.map (fun r =>
      if r.id == target then { r with is_active := true } else r))

/-- One admin operation performed with some acting credential. -/
inductive AdminOp where
  | update : String → APIKeyUpdate → AdminOp
  | deactivate : String → AdminOp
  | del : String → AdminOp
  | activate : String → AdminOp
  | create : String → String → APIKeyCreate → AdminOp

/-- Store transition of one admin operation (`create`'s first two arguments
are the generated raw key and the database-assigned id). -/
def runOp (hashFn : String → String) (acting : String) (st : List KeyRecord) :
    AdminOp → List KeyRecord
  | AdminOp.update target u => (update_api_key st acting target u).2
  | AdminOp.deactivate target => (deactivate_api_key st acting target).2
  | AdminOp.del target => (delete_api_key st acting target).2
  | AdminOp.activate target => (activate_api_key st acting target).2
  | AdminOp.create new_key newId kd =>
    (create_api_key hashFn new_key newId kd acting st).2.2

/-- Store transition of a sequence of admin operations, all performed with
the same acting credential. -/
def runOps (hashFn : String → String) (acting : String) (st : List KeyRecord) :
    List AdminOp → List KeyRecord
  | [] => st
  | op :: ops => runOps hashFn acting (runOp hashFn acting st op) ops

/-- Lookup of a key record by id (first match, as `.eq("id", x)` with unique
ids). -/
def lookupId (st : List KeyRecord) (i : String) : Option KeyRecord :=
  st.find? (fun r => r.id == i)

/-! ## Shared helper lemmas -/

/-- Lookup of a cache entry by key (Redis key space). -/
def lookupKey (st : List CacheEntry) (k : String) : Option CacheEntry :=
  st.find? (fun e => e.key == k)

/-- The HTTP status of an outcome is 401. -/
def is401 (o : AuthOutcome) : Bool :=
  match o with
  | AuthOutcome.httpError 401 _ => true
  | _ => false

theorem matchedRecord_none_iff (hashFn : String → String)
    (db : List KeyRecord) (k : String) :
    matchedRecord hashFn db k = Option.none ↔
      ∀ r ∈ db, r.key_hash ≠ hashFn k := by
  simp [matchedRecord, List.head?_eq_none_iff, List.filter_eq_nil_iff]

theorem get_or_compute_miss {gFail sFail : Bool} {st : List CacheEntry}
    {now : Nat} {k : String} {f : Unit → PyVal} {ttl : Option Nat}
    (h : get_cache gFail st now k = PyVal.none) :
    get_or_compute gFail sFail st now k f ttl
      = (f (), set_cache sFail st now k (f ()) ttl, true) := by
  simp [get_or_compute, h]

theorem get_or_compute_hit {gFail sFail : Bool} {st : List CacheEntry}
    {now : Nat} {k : String} {f : Unit → PyVal} {ttl : Option Nat}
    (h : get_cache gFail st now k ≠ PyVal.none) :
    get_or_compute gFail sFail st now k f ttl
      = (get_cache gFail st now k, st, false) := by
  simp [get_or_compute, h]

theorem redisGet_after_set (st : List CacheEntry) (now t2 : Nat)
    (k : String) (p : String) (ttl : Nat) (h : t2 < now + ttl) :
    redisGet (redisSet st now k p ttl) t2 k = Option.some p := by
  simp [redisGet, redisSet, List.find?_cons_of_pos, h]

/-! ## Claim C9 -/

/-- C9: `deactivate_key(id)` and `delete_key(id)`, when `id` equals the
acting admin key's own id, reject with the 400 client error before
performing any store mutation; the key-record store is returned unchanged. -/
theorem c9_self_target_rejected_before_mutation
    (st : List KeyRecord) (a : String) :
    deactivate_api_key st a a
      = (AdminResult.httpError 400
          "Cannot deactivate the API key you are currently using", st)
    ∧ delete_api_key st a a
      = (AdminResult.httpError 400
          "Cannot delete the API key you are currently using", st) := by
  constructor <;> simp [deactivate_api_key, delete_api_key]

/-! ## Claim C5 -/

/-- C5: a store failure on the cache read still invokes the compute function
and returns its result, with no exception propagating; a store failure on
the write after the compute succeeds is absorbed (store unchanged) and the
compute function's result is still returned. -/
theorem c5_store_failures_absorbed :
    (∀ (st : List CacheEntry) (now : Nat) (k : String) (f : Unit → PyVal)
      (ttl : Option Nat) (sFail : Bool),
      (get_or_compute true sFail st now k f ttl).1 = f ()
      ∧ (get_or_compute true sFail st now k f ttl).2.2 = true)
    ∧ (∀ (st : List CacheEntry) (now : Nat) (k : String) (f : Unit → PyVal)
      (ttl : Option Nat), redisGet st now k = Option.none →
      (get_or_compute false true st now k f ttl).1 = f ()
      ∧ (get_or_compute false true st now k f ttl).2.1 = st
      ∧ (get_or_compute false true st now k f ttl).2.2 = true) := by
  constructor
  · intro st now k f ttl sFail
    rw [get_or_compute_miss (by simp [get_cache])]
    exact ⟨rfl, rfl⟩
  · intro st now k f ttl h
    rw [get_or_compute_miss (by simp [get_cache, h])]
    exact ⟨rfl, by simp [set_cache], rfl⟩

/-- Witness for C5 at a concrete input: a read-side failure and a write-side
failure at an empty store both yield the computed value. -/
theorem c5_store_failures_absorbed_witness :
    (get_or_compute true false [] 0 "companies:list" (fun _ => PyVal.int 7)
        Option.none).1 = PyVal.int 7
    ∧ (get_or_compute false true [] 0 "companies:list" (fun _ => PyVal.int 7)
        Option.none).1 = PyVal.int 7 :=
  ⟨(c5_store_failures_absorbed.1 [] 0 "companies:list" (fun _ => PyVal.int 7)
      Option.none false).1,
    (c5_store_failures_absorbed.2 [] 0 "companies:list" (fun _ => PyVal.int 7)
      Option.none (by decide)).1⟩

/-! ## Claim C2 -/

/-- C2 counterexample: a stored payload that fails to decode is NOT treated
as a miss.  With `"k"` holding the undecodable payload `"not a json"`, the
wrapper serves that payload as a string without invoking the compute
function, so the undecodable payload is precisely what the caller receives. -/
theorem c2_counterexample_undecodable_payload_is_served :
    loads "not a json" = Option.none
    ∧ get_or_compute false false [⟨"k", "not a json", 100⟩] 0 "k"
        (fun _ => PyVal.int 7) Option.none
      = (PyVal.str "not a json", [⟨"k", "not a json", 100⟩], false) := by
  constructor
  · decide
  · decide

/-- C2 amended: when the stored payload is non-empty and fails to decode,
`get_cache` returns the payload itself as a string and `get_or_compute`
serves it as a hit: the compute function is not invoked and the raw payload
is returned to the caller.  (Only an absent key, an empty payload, a payload
decoding to JSON `null`, or a store failure behave as a miss.) -/
theorem c2_amended_undecodable_payload_served_as_string
    (st : List CacheEntry) (now : Nat) (k : String) (f : Unit → PyVal)
    (ttl : Option Nat) (p : String)
    (hp : redisGet st now k = Option.some p) (hne : p ≠ "")
    (hdec : loads p = Option.none) :
    get_or_compute false false st now k f ttl = (PyVal.str p, st, false) := by
  have hc : get_cache false st now k = PyVal.str p := by
    simp [get_cache, hp, cacheDecode, hne, hdec]
  rw [get_or_compute_hit (by rw [hc]; exact fun h => PyVal.noConfusion h), hc]

/-- Witness for C2's amended statement at a concrete input. -/
theorem c2_amended_witness :
    get_or_compute false false [⟨"q", "nope nope", 9⟩] 3 "q"
      (fun _ => PyVal.int 1) Option.none
      = (PyVal.str "nope nope", [⟨"q", "nope nope", 9⟩], false) :=
  c2_amended_undecodable_payload_served_as_string _ _ _ _ _ "nope nope"
    (by decide) (by decide) (by decide)

/-! ## Claim C7 -/

/-- C7 counterexample: the `cached` decorator's default key builder is NOT
order-independent in the named arguments: the same two keyword arguments
supplied in the two insertion orders produce different cache keys. -/
theorem c7_counterexample_default_key_depends_on_kwarg_order :
    [("a", PyVal.int 1), ("b", PyVal.int 2)].Perm
      [("b", PyVal.int 2), ("a", PyVal.int 1)]
    ∧ defaultCacheKey "p" [] [("a", PyVal.int 1), ("b", PyVal.int 2)]
      ≠ defaultCacheKey "p" [] [("b", PyVal.int 2), ("a", PyVal.int 1)] := by
  constructor
  · exact List.Perm.swap _ _ _
  · decide

/-- C7 amended: the default cache key is a deterministic function of the
operation's key prefix, the stringified positional arguments in call order
and the `name=value` pairs in the kwargs dict's insertion order; arguments
whose value is absent (`None`) are excluded from the key.  Order
independence of named arguments does NOT hold for this default builder (it
is provided only by an explicit `key_builder` such as
`build_query_cache_key`, claim C6). -/
theorem c7_amended_default_key_excludes_none_arguments
    (keyPfx : String) (args : List PyVal)
    (kwargs : List (String × PyVal)) :
    defaultCacheKey keyPfx (args.filter (fun a => a != PyVal.none))
        (kwargs.filter (fun p => p.2 != PyVal.none))
      = defaultCacheKey keyPfx args kwargs := by
  simp [defaultCacheKey, List.filter_filter]

/-! ## Claim C10 -/

/-- C10: a cached operation whose successful result is `None`, the empty
string, or any value whose stored payload is falsy is never served from the
cache.  The first (miss) call still writes an entry, but every subsequent
call under the same key within the TTL treats the read as absent (the falsy
payload check and the JSON `null` decode both yield Python `None`) and
re-invokes the compute function. -/
theorem c10_falsy_results_never_served
    (st : List CacheEntry) (now t2 : Nat) (k : String) (r : PyVal)
    (ttl : Option Nat) (g : Unit → PyVal)
    (hr : r = PyVal.none ∨ payloadOf r = "")
    (habsent : redisGet st now k = Option.none)
    (hsub : now ≤ t2) (hwithin : t2 < now + resolveTtl ttl) :
    (get_or_compute false false st now k (fun _ => r) ttl).1 = r
    ∧ (get_or_compute false false st now k (fun _ => r) ttl).2.2 = true
    ∧ (lookupKey (get_or_compute false false st now k (fun _ => r) ttl).2.1
        k).isSome = true
    ∧ (get_or_compute false false
        (get_or_compute false false st now k (fun _ => r) ttl).2.1
        t2 k g ttl).1 = g ()
    ∧ (get_or_compute false false
        (get_or_compute false false st now k (fun _ => r) ttl).2.1
        t2 k g ttl).2.2 = true := by
  have hmiss : get_cache false st now k = PyVal.none := by
    simp [get_cache, habsent]
  rw [get_or_compute_miss hmiss]
  have hset : set_cache false st now k r ttl
      = redisSet st now k (payloadOf r) (resolveTtl ttl) := by
    simp [set_cache]
  have hget2 : redisGet (set_cache false st now k r ttl) t2 k
      = Option.some (payloadOf r) := by
    rw [hset]
    exact redisGet_after_set st now t2 k (payloadOf r) (resolveTtl ttl) hwithin
  have hdec : cacheDecode (payloadOf r) = PyVal.none := by
    rcases hr with h | h
    · subst h; decide
    · rw [h]; simp [cacheDecode]
  have hmiss2 : get_cache false (set_cache false st now k r ttl) t2 k
      = PyVal.none := by
    simp [get_cache, hget2, hdec]
  rw [get_or_compute_miss hmiss2]
  refine ⟨rfl, rfl, ?_, rfl, rfl⟩
  rw [hset]
  simp [lookupKey, redisSet, List.find?_cons_of_pos]

/-- Witness for C10 at a concrete input: a `None` result is written but the
next read within the TTL recomputes. -/
theorem c10_falsy_results_never_served_witness :
    (get_or_compute false false
      (get_or_compute false false [] 0 "stats" (fun _ => PyVal.none)
        Option.none).2.1
      5 "stats" (fun _ => PyVal.int 9) Option.none).1 = PyVal.int 9 :=
  (c10_falsy_results_never_served [] 0 5 "stats" PyVal.none Option.none
    (fun _ => PyVal.int 9) (Or.inl rfl) (by decide) (by decide)
    (by decide)).2.2.2.1

/-! ## Claim C3 -/

/-- C3 counterexample: the round trip fails for a compute function returning
`None`.  The first call misses, invokes `f` (result `None`) and writes the
entry `"null"`; the second call at the same instant (well within the TTL)
decodes `"null"` back to `None`, treats it as a miss, invokes `g` and
returns `g`'s result instead of `f`'s. -/
theorem c3_counterexample_none_result_breaks_round_trip :
    (get_or_compute false false [] 0 "k" (fun _ => PyVal.none)
        Option.none).1 = PyVal.none
    ∧ (lookupKey (get_or_compute false false [] 0 "k" (fun _ => PyVal.none)
        Option.none).2.1 "k").isSome = true
    ∧ (get_or_compute false false
        (get_or_compute false false [] 0 "k" (fun _ => PyVal.none)
          Option.none).2.1
        0 "k" (fun _ => PyVal.int 1) Option.none).2.2 = true
    ∧ (get_or_compute false false
        (get_or_compute false false [] 0 "k" (fun _ => PyVal.none)
          Option.none).2.1
        0 "k" (fun _ => PyVal.int 1) Option.none).1 = PyVal.int 1 := by
  refine ⟨by decide, by decide, by decide, by decide⟩

/-- C3 corrected: the round trip `get_or_compute(k, f)` then
`get_or_compute(k, g)` within the TTL returns `f`'s result without invoking
`g`, provided `f`'s result is not Python-falsy-encoded: it is not `None` and
its stored payload decodes back to the same value (this excludes `None`, the
empty string, and strings that themselves parse as different JSON, cf. the
counterexample and claim C10).  The served value then equals the value `f`
produced at write time. -/
theorem c3_amended_round_trip_for_faithfully_encoded_results
    (st : List CacheEntry) (now t2 : Nat) (k : String)
    (f g : Unit → PyVal) (ttl : Option Nat)
    (habsent : redisGet st now k = Option.none)
    (hround : cacheDecode (payloadOf (f ())) = f ())
    (hnn : f () ≠ PyVal.none)
    (hsub : now ≤ t2) (hwithin : t2 < now + resolveTtl ttl) :
    (get_or_compute false false st now k f ttl).1 = f ()
    ∧ (get_or_compute false false st now k f ttl).2.2 = true
    ∧ get_or_compute false false
        (get_or_compute false false st now k f ttl).2.1 t2 k g ttl
      = (f (), (get_or_compute false false st now k f ttl).2.1, false) := by
  have hmiss : get_cache false st now k = PyVal.none := by
    simp [get_cache, habsent]
  rw [get_or_compute_miss hmiss]
  have hget2 : redisGet (set_cache false st now k (f ()) ttl) t2 k
      = Option.some (payloadOf (f ())) := by
    simp only [set_cache, if_neg (Bool.false_ne_true)]
    exact redisGet_after_set st now t2 k _ (resolveTtl ttl) hwithin
  have hc2 : get_cache false (set_cache false st now k (f ()) ttl) t2 k
      = f () := by
    simp [get_cache, hget2, hround]
  rw [get_or_compute_hit (by rw [hc2]; exact hnn), hc2]
  exact ⟨rfl, rfl, rfl⟩

/-- Witness for C3's corrected statement at a concrete input: an `int`
result is served back unchanged and the second compute function is not
invoked. -/
theorem c3_amended_witness :
    get_or_compute false false
      (get_or_compute false false [] 2 "ov" (fun _ => PyVal.int 42)
        Option.none).2.1
      7 "ov" (fun _ => PyVal.int 5) Option.none
    = (PyVal.int 42,
        (get_or_compute false false [] 2 "ov" (fun _ => PyVal.int 42)
          Option.none).2.1, false) :=
  (c3_amended_round_trip_for_faithfully_encoded_results [] 2 7 "ov"
    (fun _ => PyVal.int 42) (fun _ => PyVal.int 5) Option.none
    (by decide) (by decide) (by decide) (by decide) (by decide)).2.2

/-! ## Claim C1 -/

/-- C1: the authenticator, evaluated fresh per request, rejects with 401
exactly when the credential header is absent or empty, when no stored
record's digest equals the presented credential's digest (no matched
record), or when the matched record is inactive or its `expires_at` lies
strictly before the current time; a validated non-admin principal is
rejected with 403 by the admin gate, an admin principal passes it; and
outside the rejection conditions the principal built from the matched
record is returned. -/
theorem c1_authenticator_rejects_exactly_as_specified
    (hashFn : String → String) (db : List KeyRecord) (now : Nat)
    (api_key : Option String) :
    (is401 (verify_api_key hashFn db now api_key) = true ↔
      (api_key = Option.none ∨ api_key = Option.some ""
        ∨ matchedRecord hashFn db (api_key.getD "") = Option.none
        ∨ ∃ r, matchedRecord hashFn db (api_key.getD "") = Option.some r
            ∧ (r.is_active = false
                ∨ ∃ e, r.expires_at = Option.some e ∧ e < now)))
    ∧ (∀ v, verify_api_key hashFn db now api_key = AuthOutcome.ok v →
        (v.is_admin = false →
          require_admin_key hashFn db now api_key
            = AuthOutcome.httpError 403
                "Admin API key required for this operation")
        ∧ (v.is_admin = true →
          require_admin_key hashFn db now api_key = AuthOutcome.ok v))
    ∧ (∀ r, ¬(api_key = Option.none ∨ api_key = Option.some "") →
        matchedRecord hashFn db (api_key.getD "") = Option.some r →
        r.is_active = true →
        (∀ e, r.expires_at = Option.some e → now ≤ e) →
        verify_api_key hashFn db now api_key
          = AuthOutcome.ok ⟨r.id, r.is_admin, r.is_active, r.expires_at,
              r.metadata⟩) := by
  refine ⟨?_, ?_, ?_⟩
  · by_cases hcred : api_key = Option.none ∨ api_key = Option.some ""
    · rcases hcred with h | h <;> subst h <;> simp [verify_api_key, is401]
    · rcases hm : matchedRecord hashFn db (api_key.getD "") with _ | r
      · simp [verify_api_key, if_neg hcred, hm, is401, hcred]
      · by_cases hact : r.is_active = false
        · simp [verify_api_key, if_neg hcred, hm, hact, is401, hcred]
        · have hact' : r.is_active = true := by
            revert hact; cases r.is_active <;> simp
          rcases hexp : r.expires_at with _ | e
          · simp [verify_api_key, if_neg hcred, hm, hact', hexp, is401, hcred]
          · by_cases hlt : now > e
            · simp [verify_api_key, if_neg hcred, hm, hact', hexp, hlt,
                is401, hcred]
            · simp [verify_api_key, if_neg hcred, hm, hact', hexp, hlt,
                is401, hcred]
  · intro v hv
    constructor <;> intro h <;> simp [require_admin_key, hv, h]
  · intro r hcred hm hact hexp
    rcases hc : r.expires_at with _ | e
    · simp [verify_api_key, if_neg hcred, hm, hact, hc]
    · have he := hexp e hc
      simp [verify_api_key, if_neg hcred, hm, hact, hc, Nat.not_lt.mpr he]

/-- Witness for C1 at a concrete input: a stored active admin record whose
digest matches the presented credential passes both the authenticator and
the admin gate. -/
theorem c1_authenticator_witness :
    require_admin_key (fun s => s)
      [⟨"id1", "rawkey", "rawk", "root", true, true, Option.none,
        Option.none, ""⟩] 0 (Option.some "rawkey")
      = AuthOutcome.ok ⟨"id1", true, true, Option.none, ""⟩ :=
  ((c1_authenticator_rejects_exactly_as_specified (fun s => s)
      [⟨"id1", "rawkey", "rawk", "root", true, true, Option.none,
        Option.none, ""⟩] 0 (Option.some "rawkey")).2.1
    ⟨"id1", true, true, Option.none, ""⟩ (by decide)).2 rfl

/-! ## Claim C6 -/

theorem sortedParam_eq_of_perm (l₁ l₂ : List (String × PyVal))
    (hp : l₁.Perm l₂) (hnd : (l₁.map Prod.fst).Nodup) :
    l₁.insertionSort paramLe = l₂.insertionSort paramLe := by
  have hnd₂ : (l₂.map Prod.fst).Nodup := ((hp.map Prod.fst).nodup_iff).mp hnd
  apply List.eq_of_perm_of_sorted (r := paramLtKey)
  · exact (List.perm_insertionSort paramLe l₁).trans
      (hp.trans (List.perm_insertionSort paramLe l₂).symm)
  · exact (List.sorted_insertionSort paramLe l₁).and
      (List.pairwise_map.mp
        (((List.perm_insertionSort paramLe l₁).map Prod.fst).nodup_iff.mpr hnd))
  · exact (List.sorted_insertionSort paramLe l₂).and
      (List.pairwise_map.mp
        (((List.perm_insertionSort paramLe l₂).map Prod.fst).nodup_iff.mpr hnd₂))

/-- C6: `build_query_cache_key` is deterministic and order-independent: it
drops parameters whose value is absent, sorts the remainder by parameter
name and joins `name=value` pairs with a stable separator after the prefix,
so two parameter maps (pairwise-distinct names) holding the same entries in
any insertion order yield identical keys, and `None`-valued parameters do
not influence the key. -/
theorem c6_build_query_cache_key_canonical :
    (∀ (keyPfx : String) (l₁ l₂ : List (String × PyVal)),
      l₁.Perm l₂ → (l₁.map Prod.fst).Nodup →
      build_query_cache_key keyPfx l₁ = build_query_cache_key keyPfx l₂)
    ∧ (∀ (keyPfx : String) (l : List (String × PyVal)),
      build_query_cache_key keyPfx (l.filter (fun p => p.2 != PyVal.none))
        = build_query_cache_key keyPfx l) := by
  constructor
  · intro keyPfx l₁ l₂ hp hnd
    have hpf : (l₁.filter (fun p => p.2 != PyVal.none)).Perm
        (l₂.filter (fun p => p.2 != PyVal.none)) := hp.filter _
    have hndf : ((l₁.filter (fun p => p.2 != PyVal.none)).map Prod.fst).Nodup :=
      hnd.sublist ((List.filter_sublist l₁).map Prod.fst)
    unfold build_query_cache_key
    by_cases hnil : l₁.filter (fun p => p.2 != PyVal.none) = []
    · have hnil₂ : l₂.filter (fun p => p.2 != PyVal.none) = [] := by
        have h := hpf
        rw [hnil] at h
        exact h.symm.eq_nil
      simp [hnil, hnil₂]
    · have hnil₂ : l₂.filter (fun p => p.2 != PyVal.none) ≠ [] := by
        intro h
        rw [h] at hpf
        exact hnil hpf.eq_nil
      rw [sortedParam_eq_of_perm _ _ hpf hndf]
      simp [hnil, hnil₂]
  · intro keyPfx l
    have hff : (l.filter (fun p => p.2 != PyVal.none)).filter
        (fun p => p.2 != PyVal.none) = l.filter (fun p => p.2 != PyVal.none) := by
      rw [List.filter_filter]
      simp
    unfold build_query_cache_key
    rw [hff]

/-- Witness for C6 at concrete inputs: insertion order does not matter, and
a `None`-valued parameter is excluded. -/
theorem c6_build_query_cache_key_witness :
    build_query_cache_key "p" [("a", PyVal.int 1), ("b", PyVal.int 2)]
      = build_query_cache_key "p" [("b", PyVal.int 2), ("a", PyVal.int 1)]
    ∧ build_query_cache_key "p" [("a", PyVal.int 1), ("b", PyVal.none)]
      = build_query_cache_key "p" [("a", PyVal.int 1)] :=
  ⟨c6_build_query_cache_key_canonical.1 "p" _ _
      (List.Perm.swap ("b", PyVal.int 2) ("a", PyVal.int 1) [])
      (by decide),
    (c6_build_query_cache_key_canonical.2 "p"
      [("a", PyVal.int 1), ("b", PyVal.none)]).symm⟩

/-! ## Claim C4 -/

theorem lookupId_map_id_preserving (f : KeyRecord → KeyRecord)
    (hf : ∀ r, (f r).id = r.id) (st : List KeyRecord) (a : String) :
    lookupId (st.map f) a = (lookupId st a).map f := by
  induction st with
  | nil => rfl
  | cons x xs ih =>
    by_cases h : x.id = a
    · have h1 : (x.id == a) = true := by simp [h]
      have h2 : ((f x).id == a) = true := by simp [hf, h]
      simp [lookupId, List.find?_cons_of_pos, h1, h2]
    · have h1 : (x.id == a) = false := by simp [h]
      have h2 : ((f x).id == a) = false := by simp [hf, h]
      simp only [lookupId, List.map_cons, List.find?_cons_of_neg,
        h1, h2, Bool.false_eq_true, not_false_eq_true]
      exact ih

theorem lookupId_filter_ne (st : List KeyRecord) (a t : String)
    (hne : a ≠ t) :
    lookupId (st.filter (fun r => r.id != t)) a = lookupId st a := by
  induction st with
  | nil => rfl
  | cons x xs ih =>
    by_cases hx : x.id = t
    · have hpa : (x.id == a) = false := by
        simp [hx]
        exact fun h => hne h.symm
      have hflt : (x.id != t) = false := by simp [hx]
      simp only [List.filter_cons, hflt, Bool.false_eq_true, if_false,
        lookupId, List.find?_cons_of_neg, hpa, not_false_eq_true]
      exact ih
    · have hflt : (x.id != t) = true := by simp [hx]
      by_cases hpa : x.id = a
      · have h1 : (x.id == a) = true := by simp [hpa]
        simp [lookupId, List.filter_cons, hflt, List.find?_cons_of_pos, h1]
      · have h1 : (x.id == a) = false := by simp [hpa]
        simp only [List.filter_cons, hflt, if_true, lookupId,
          List.find?_cons_of_neg, h1, Bool.false_eq_true, not_false_eq_true]
        exact ih

/-- An admin operation that does not try to flip the acting key's own
`is_active` flag off through the unguarded update endpoint.  (`deactivate`
and `delete` need no restriction: their self-checks are in the code.) -/
def selfSafe (acting : String) : AdminOp → Prop
  | AdminOp.update target u =>
    target = acting → u.is_active ≠ Option.some false
  | _ => True

theorem runOp_preserves_acting_active (hashFn : String → String)
    (acting : String) (st : List KeyRecord) (op : AdminOp)
    (hsafe : selfSafe acting op) (r : KeyRecord)
    (hfind : lookupId st acting = Option.some r)
    (hact : r.is_active = true) :
    ∃ r', lookupId (runOp hashFn acting st op) acting = Option.some r'
      ∧ r'.is_active = true := by
  have hrid : r.id = acting := by
    have h := List.find?_some hfind
    simpa using h
  cases op with
  | update target u =>
    by_cases hnf : noFields u = true
    · refine ⟨r, ?_, hact⟩
      simp [runOp, update_api_key, hnf, hfind]
    · have hf : ∀ rr, ((fun rr =>
          if rr.id == target then applyUpdate u rr else rr) rr).id = rr.id := by
        intro rr
        by_cases h : (rr.id == target) = true <;> simp [h, applyUpdate]
      have hmap := lookupId_map_id_preserving
        (fun rr => if rr.id == target then applyUpdate u rr else rr) hf st acting
      refine ⟨if r.id == target then applyUpdate u r else r, ?_, ?_⟩
      · simp only [runOp, update_api_key, hnf, Bool.false_eq_true, if_false]
        rw [hmap, hfind]
        rfl
      · by_cases ht : acting = target
        · have hsafe' : u.is_active ≠ Option.some false := hsafe ht.symm
          have heq : r.id = target := by rw [hrid]; exact ht
          rcases hu : u.is_active with _ | b
          · simp [heq, applyUpdate, hu, hact]
          · cases b
            · exact absurd hu hsafe'
            · simp [heq, applyUpdate, hu]
        · have hne : ¬ r.id = target := by rw [hrid]; exact ht
          simp [hne, hact]
  | deactivate target =>
    by_cases ht : target = acting
    · refine ⟨r, ?_, hact⟩
      simp [runOp, deactivate_api_key, ht, hfind]
    · have hf : ∀ rr, ((fun (rr : KeyRecord) => if rr.id == target
          then { rr with is_active := false } else rr) rr).id = rr.id := by
        intro rr
        by_cases h : (rr.id == target) = true <;> simp [h]
      have hmap := lookupId_map_id_preserving
        (fun (rr : KeyRecord) => if rr.id == target
          then { rr with is_active := false } else rr) hf st acting
      have hne : ¬ r.id = target := by
        rw [hrid]
        exact fun h => ht h.symm
      refine ⟨r, ?_, hact⟩
      simp only [runOp, deactivate_api_key, ht, if_false]
      rw [hmap, hfind]
      simp [hne]
  | del target =>
    by_cases ht : target = acting
    · refine ⟨r, ?_, hact⟩
      simp [runOp, delete_api_key, ht, hfind]
    · refine ⟨r, ?_, hact⟩
      simp only [runOp, delete_api_key, ht, if_false]
      rw [lookupId_filter_ne st acting target (fun h => ht h.symm)]
      exact hfind
  | activate target =>
    have hf : ∀ rr, ((fun (rr : KeyRecord) => if rr.id == target
        then { rr with is_active := true } else rr) rr).id = rr.id := by
      intro rr
      by_cases h : (rr.id == target) = true <;> simp [h]
    have hmap := lookupId_map_id_preserving
      (fun (rr : KeyRecord) => if rr.id == target
        then { rr with is_active := true } else rr) hf st acting
    refine ⟨if r.id == target then { r with is_active := true } else r, ?_, ?_⟩
    · simp only [runOp, activate_api_key]
      rw [hmap, hfind]
      rfl
    · by_cases hrt : r.id = target <;> simp [hrt, hact]
  | create new_key newId kd =>
    refine ⟨r, ?_, hact⟩
    simp only [runOp, create_api_key, lookupId, List.find?_append]
    have h : st.find? (fun rr => rr.id == acting) = Option.some r := hfind
    rw [h]
    rfl

/-- C4 counterexample: the claim fails on the code because `update_api_key`
has no self-target check.  A single `PATCH` with `is_active := false`
targeting the acting admin key's own id, performed with that key as the
acting credential, leaves the acting key's record deactivated. -/
theorem c4_counterexample_update_deactivates_acting_key :
    lookupId (runOps (fun s => s) "a"
        [⟨"a", "h1", "pfx8chars", "root", true, true, Option.none,
          Option.none, ""⟩]
        [AdminOp.update "a"
          ⟨Option.none, Option.some false, Option.none, Option.none⟩]) "a"
      = Option.some ⟨"a", "h1", "pfx8chars", "root", false, true,
          Option.none, Option.none, ""⟩ := by
  decide

/-- C4 corrected: restricted to operation sequences that never route a
self-targeted `is_active := false` through the unguarded update endpoint,
the self-protection invariant holds: starting from a store where the acting
key's record is active, no sequence of admin operations performed with that
key as the acting credential leaves the record deactivated or removed.
(`deactivate` and `delete` self-targets are rejected by the code itself,
claim C9; `update` is the one unguarded path, cf. the counterexample.) -/
theorem c4_amended_self_protection_invariant (hashFn : String → String)
    (acting : String) :
    ∀ (ops : List AdminOp) (st : List KeyRecord) (r : KeyRecord),
      (∀ op ∈ ops, selfSafe acting op) →
      lookupId st acting = Option.some r → r.is_active = true →
      ∃ r', lookupId (runOps hashFn acting st ops) acting = Option.some r'
        ∧ r'.is_active = true := by
  intro ops
  induction ops with
  | nil =>
    intro st r _ hfind hact
    exact ⟨r, hfind, hact⟩
  | cons op ops ih =>
    intro st r hsafe hfind hact
    obtain ⟨r', hf', ha'⟩ := runOp_preserves_acting_active hashFn acting st op
      (hsafe op (by simp)) r hfind hact
    exact ih (runOp hashFn acting st op) r'
      (fun o ho => hsafe o (by simp [ho])) hf' ha'

/-- Witness for C4's corrected statement at a concrete input: a sequence
that deactivates another key, deletes a third and self-targets only a
harmless update leaves the acting key present and active. -/
theorem c4_amended_witness :
    ∃ r', lookupId (runOps (fun s => s) "a"
        [⟨"a", "h1", "pfxaaaaa", "root", true, true, Option.none,
          Option.none, ""⟩,
         ⟨"b", "h2", "pfxbbbbb", "reader", true, false, Option.none,
          Option.some "a", ""⟩]
        [AdminOp.deactivate "b", AdminOp.deactivate "a", AdminOp.del "a",
          AdminOp.update "a"
            ⟨Option.some "renamed", Option.none, Option.none, Option.none⟩])
        "a" = Option.some r' ∧ r'.is_active = true :=
  c4_amended_self_protection_invariant (fun s => s) "a"
    [AdminOp.deactivate "b", AdminOp.deactivate "a", AdminOp.del "a",
      AdminOp.update "a"
        ⟨Option.some "renamed", Option.none, Option.none, Option.none⟩]
    [⟨"a", "h1", "pfxaaaaa", "root", true, true, Option.none,
      Option.none, ""⟩,
     ⟨"b", "h2", "pfxbbbbb", "reader", true, false, Option.none,
      Option.some "a", ""⟩]
    ⟨"a", "h1", "pfxaaaaa", "root", true, true, Option.none,
      Option.none, ""⟩
    (by intro op ho; fin_cases ho <;> simp [selfSafe])
    (by decide) rfl

/-! ## Claim C8 -/

theorem b64urlEncode_length : ∀ (bs : List Nat),
    (b64urlEncode bs).length
      = 4 * (bs.length / 3) + bs.length % 3
        + (if bs.length % 3 = 0 then 0 else 1)
  | [] => by simp [b64urlEncode]
  | [_] => by simp [b64urlEncode]
  | [_, _] => by simp [b64urlEncode]
  | a :: b :: c :: rest => by
    have ih := b64urlEncode_length rest
    have h3 : (rest.length + 1 + 1 + 1) % 3 = rest.length % 3 := by omega
    simp only [b64urlEncode, List.length_cons, ih, h3]
    by_cases h : rest.length % 3 = 0 <;> simp [h] <;> omega

/-- C8: `create_key` generates a URL-safe raw secret carrying the full 256
bits of the 32 random bytes drawn (the encoding is injective on them), of
length 43, returns it exactly once in the creation response, persists a
record whose digest equals the digest of the returned raw secret and whose
prefix is the first 8 characters of the raw secret, and the persisted record
depends on the raw secret only through that digest and 8-character prefix —
it never contains the raw secret itself. -/
theorem c8_create_key_secret_handling
    (hashFn : String → String) (bytes : List Nat)
    (h32 : bytes.length = 32) (hbytes : ∀ x ∈ bytes, x < 256)
    (newId : String) (kd : APIKeyCreate) (acting : String)
    (st : List KeyRecord) :
    (create_api_key hashFn (generate_api_key bytes) newId kd acting st).1.key
        = generate_api_key bytes
    ∧ (create_api_key hashFn (generate_api_key bytes) newId kd acting
        st).2.1.key_hash = hashFn (generate_api_key bytes)
    ∧ (create_api_key hashFn (generate_api_key bytes) newId kd acting
        st).2.1.keyPfx = (generate_api_key bytes).take 8
    ∧ (generate_api_key bytes).length = 43
    ∧ (∀ ch ∈ (generate_api_key bytes).data, ch ∈ b64Alphabet)
    ∧ (∀ bs2, (∀ x ∈ bs2, x < 256) →
        generate_api_key bs2 = generate_api_key bytes → bs2 = bytes)
    ∧ (∀ raw2, hashFn raw2 = hashFn (generate_api_key bytes) →
        raw2.take 8 = (generate_api_key bytes).take 8 →
        (create_api_key hashFn raw2 newId kd acting st).2.1
            = (create_api_key hashFn (generate_api_key bytes) newId kd acting
                st).2.1
          ∧ (create_api_key hashFn raw2 newId kd acting st).2.2
            = (create_api_key hashFn (generate_api_key bytes) newId kd acting
                st).2.2) := by
  refine ⟨rfl, rfl, ?_, ?_, ?_, ?_, ?_⟩
  · simp only [create_api_key]
  · have hlen := b64urlEncode_length bytes
    rw [h32] at hlen
    have hl : (b64urlEncode bytes).length = 43 := by
      rw [hlen]
      norm_num
    exact hl
  · intro ch hch
    exact b64urlEncode_chars bytes hbytes ch hch
  · intro bs2 hb2 he
    exact generate_api_key_inj hb2 hbytes he
  · intro raw2 hh hp
    constructor
    · simp [create_api_key, hh, hp]
    · simp [create_api_key, hh, hp]

/-- Witness for C8 at a concrete input (32 zero bytes): the response carries
the raw secret, and the secret has 43 characters. -/
theorem c8_create_key_witness :
    (create_api_key (fun s => s) (generate_api_key (List.replicate 32 0))
        "nid" ⟨"svc", false, Option.none, ""⟩ "adm" []).1.key
      = generate_api_key (List.replicate 32 0)
    ∧ (generate_api_key (List.replicate 32 0)).length = 43 :=
  ⟨(c8_create_key_secret_handling (fun s => s) (List.replicate 32 0)
      (by decide) (by decide) "nid" ⟨"svc", false, Option.none, ""⟩ "adm"
      []).1,
    (c8_create_key_secret_handling (fun s => s) (List.replicate 32 0)
      (by decide) (by decide) "nid" ⟨"svc", false, Option.none, ""⟩ "adm"
      []).2.2.2.1⟩

/-- C6 counterexample: the claim's "filters out parameters with
absent/empty values" fails for empty values: `build_query_cache_key` keeps a
parameter whose value is the empty string (only `None`-valued parameters are
dropped, by the `v is not None` comprehension), so the key is not the bare
prefix. -/
theorem c6_counterexample_empty_value_not_filtered :
    build_query_cache_key "p" [("a", PyVal.str "")] = "p:a="
    ∧ build_query_cache_key "p" [("a", PyVal.str "")] ≠ "p" := by
  constructor
  · decide
  · decide
